import Mathlib


/-!
Verification of the realtime chat client of the Github Intelligence Platform
frontend (`src/frontend/js/ai-chat.js` and `src/frontend/js/markdown-renderer.js`).

The chat client is a single-threaded, event-driven state machine: WebSocket
frames arrive one at a time and each handler runs to completion. We embed the
mutable page state (the global variables `currentConversationId`,
`currentAssistantMessage`, `isConnected`, the `#chatMessages` container, the
typing indicator, the sidebar list, the chat input and the toast area) as a
record `ChatState`, and each JavaScript handler as a pure function on it.

DOM message elements are modelled with an explicit identity heap: `elems` maps
element ids to their current value, `container` lists the ids of the children
of `#chatMessages` in document order, and `currentAssistantMessage` is either
`none` (the JS `null`) or the id of the element it references.  This keeps the
JS aliasing faithful: clearing the container (`innerHTML = ''`) detaches an
element without invalidating the reference held in `currentAssistantMessage`.
Rendering (innerHTML produced by `processMessageContent`) is a function of the
stored raw content and is modelled separately by the markdown-renderer
definitions below.
-/


/-- Message role as displayed.  `displayConversationHistory` branches on
`msg.role === 'user'`; any other role string renders as assistant. -/

inductive Role
  | user
  | assistant
deriving DecidableEq

/-- The value of one child element of the `#chatMessages` container: either the
welcome banner or a message element.  For a message element `rawContent` is the
`dataset.rawContent` / text content of its `.message-text` node and `timestamp`
the string shown in its `.message-timestamp` node. -/

inductive ElemVal
  | welcome
  | message (role : Role) (rawContent : String) (timestamp : String)
deriving DecidableEq

/-- One conversation summary as listed by the REST directory
(`/api/conversations/`). -/

structure Conv where
  id : Int
  title : String
  messageCount : Nat
  updatedAt : String
deriving DecidableEq

/-- The `#conversationsList` sidebar: either rendered items (each with its
`active` CSS-class flag), the transient loading placeholder written by
`clearCurrentChat`, or the empty-state placeholder. -/

inductive Sidebar
  | items (convs : List (Conv × Bool))
  | loadingState
  | emptyState
deriving DecidableEq

/-- The page state mutated by `ai-chat.js`. -/

structure ChatState where
  /-- global `currentConversationId` (`null` modelled as `none`). -/
  currentConversationId : Option Int
  /-- global `currentAssistantMessage`: id of the referenced DOM element. -/
  currentAssistantMessage : Option Nat
  /-- next fresh DOM element id (allocation counter of the model). -/
  nextId : Nat
  /-- allocated message/welcome elements, newest first. -/
  elems : List (Nat × ElemVal)
  /-- children of `#chatMessages`, in document order, by id. -/
  container : List Nat
  /-- whether `#typingIndicator` is shown (i.e. not `.hidden`). -/
  typing : Bool
  /-- global `isConnected`. -/
  isConnected : Bool
  /-- value of the `#chatInput` textarea. -/
  inputValue : String
  /-- toasts shown so far, as (message, type) pairs, oldest first. -/
  toasts : List (String × String)
  /-- the `#conversationsList` sidebar. -/
  sidebar : Sidebar
deriving DecidableEq

/-- First-match lookup in the element heap (newest entry wins, matching the
model's allocation discipline). -/

def lookupElem : List (Nat × ElemVal) → Nat → Option ElemVal
  | [], _ => none
  | (i, v) :: rest, id => if i = id then some v else lookupElem rest id

/-- Overwrite the raw content of the first heap entry with the given id,
keeping its role and timestamp (models assigning `dataset.rawContent` /
`innerHTML` on the referenced `.message-text` node). -/

def setRawContent : List (Nat × ElemVal) → Nat → String → List (Nat × ElemVal)
  | [], _, _ => []
  | (i, v) :: rest, id, s =>
    if i = id then
      (i, match v with
          | ElemVal.welcome => ElemVal.welcome
          | ElemVal.message r _ ts => ElemVal.message r s ts) :: rest
    else (i, v) :: setRawContent rest id s

/-- Raw content of an element value, if it is a message element. -/

def rawContentOf : Option ElemVal → Option String
  | some (ElemVal.message _ s _) => some s
  | _ => none

/-- Allocate a fresh element with value `v`; returns the new state and id. -/

def allocElem (st : ChatState) (v : ElemVal) : ChatState × Nat :=
  ({ st with elems := (st.nextId, v) :: st.elems, nextId := st.nextId + 1 }, st.nextId)

/-- The messages (and welcome banner) currently visible in `#chatMessages`,
in document order. -/

def visibleMsgs (st : ChatState) : List ElemVal :=
  st.container.filterMap (lookupElem st.elems)

/-- One message object of a `history` event payload.  `role` is kept as the
raw string the server sent, since the code compares it with `'user'`. -/

structure HistMsg where
  role : String
  content : String
  timestamp : String
deriving DecidableEq

/-- The element `displayConversationHistory` builds for one history message:
`displayUserMessage` for role `"user"`, otherwise the assistant template. -/

def elemOfHist (m : HistMsg) : ElemVal :=
  ElemVal.message (if m.role = "user" then Role.user else Role.assistant) m.content m.timestamp

/-- Inbound WebSocket frames after the `JSON.parse`/`data.type` dispatch of
`handleWebSocketMessage`.  `unknown` is a well-formed frame whose `type` tag
matches no `case`; `malformed` is a frame on which `JSON.parse` throws (the
surrounding `try`/`catch` swallows the exception). -/

inductive Frame
  | connection (message : String)
  | userMessage (message : String) (timestamp : String)
  | typing (isTyping : Bool)
  | chunk (content : String)
  | complete
  | history (messages : List HistMsg)
  | newConversation (conversationId : Int)
  | error (message : String)
  | unknown (tag : String)
  | malformed (raw : String)
deriving DecidableEq

/-- Source `showToast(message, type)`: appends a toast. -/

def showToast (st : ChatState) (message : String) (kind : String) : ChatState :=
  { st with toasts := st.toasts ++ [(message, kind)] }

/-- Source `toggleTypingIndicator(show)`. -/

def toggleTypingIndicator (st : ChatState) (shown : Bool) : ChatState :=
  { st with typing := shown }

/-- Source `displayUserMessage(message, timestamp)`: builds a user message element and
appends it to `#chatMessages`. -/

def displayUserMessage (st : ChatState) (message : String) (timestamp : String) : ChatState :=
  let (st1, id) := allocElem st (ElemVal.message Role.user message timestamp)
  { st1 with container := st1.container ++ [id] }

/-- Source `appendAssistantMessageChunk(chunk)`: if `currentAssistantMessage` is null,
create an assistant message element with empty text (timestamped `nowTs`) and
append it to the container; then append the chunk to the element's
`dataset.rawContent` (reading a missing value as `''`, as `|| ''` does) and
re-render.  `nowTs` stands for `formatTimestamp(new Date().toISOString())`. -/

def appendAssistantMessageChunk (nowTs : String) (chunk : String) (st : ChatState) : ChatState :=
  let st1 :=
    match st.currentAssistantMessage with
    | none =>
      let (st2, id) := allocElem st (ElemVal.message Role.assistant "" nowTs)
      { st2 with container := st2.container ++ [id], currentAssistantMessage := some id }
    | some _ => st
  match st1.currentAssistantMessage with
  | none => st1
  | some id =>
    let currentText := (rawContentOf (lookupElem st1.elems id)).getD ""
    { st1 with elems := setRawContent st1.elems id (currentText ++ chunk) }

/-- Source `completeAssistantMessage()`. -/

def completeAssistantMessage (st : ChatState) : ChatState :=
  toggleTypingIndicator { st with currentAssistantMessage := none } false

/-- One loop body of `displayConversationHistory`: build the element for the
history message and append it to the container. -/

def appendHistMsg (st : ChatState) (m : HistMsg) : ChatState :=
  let (st1, id) := allocElem st (elemOfHist m)
  { st1 with container := st1.container ++ [id] }

/-- Source `displayConversationHistory(messages)`: clears `#chatMessages`
(`innerHTML = ''`) and appends one element per payload message.  Note it does
not touch `currentAssistantMessage`. -/

def displayConversationHistory (messages : List HistMsg) (st : ChatState) : ChatState :=
  messages.foldl appendHistMsg { st with container := [] }

/-- Source `handleWebSocketMessage`, after decoding, as a total transition function.
The JS `try`/`catch` around the dispatch means no frame throws out of the
handler; the `malformed` and `unknown` branches fall through with no state
change. -/

def handleWebSocketMessage (nowTs : String) (frame : Frame) (st : ChatState) : ChatState :=
  match frame with
  | Frame.connection _ => st
  | Frame.userMessage m ts => displayUserMessage st m ts
  | Frame.typing b => toggleTypingIndicator st b
  | Frame.chunk c => appendAssistantMessageChunk nowTs c st
  | Frame.complete => completeAssistantMessage st
  | Frame.history msgs => displayConversationHistory msgs st
  | Frame.newConversation cid => { st with currentConversationId := some cid }
  | Frame.error m => toggleTypingIndicator (showToast st m "error") false
  | Frame.unknown _ => st
  | Frame.malformed _ => st

/-- The state `#chatMessages` starts in: empty page, nothing loaded.  Used as a
concrete instantiation point for the hypotheses of the theorems above. -/

def initChatState : ChatState :=
  { currentConversationId := none, currentAssistantMessage := none, nextId := 0,
    elems := [], container := [], typing := false, isConnected := true,
    inputValue := "", toasts := [], sidebar := Sidebar.items [] }

/-! ### History replacement (C3) -/


/-- Every id displayed in the container was allocated before the current
allocation counter.  Holds for every state the page can actually reach; the
history lemmas below re-establish it from an emptied container, so the
top-level replacement theorem needs no reachability hypothesis. -/

def containerBounded (st : ChatState) : Prop :=
  ∀ id ∈ st.container, id < st.nextId

/-! ### Outbound commands and effects (C4, C9, C10) -/


/-- Client-to-server command vocabulary (`websocket.send(JSON.stringify(...))`
payloads). -/

inductive Command
  | chatMessage (message : String) (conversationId : Option Int)
  | loadHistory (conversationId : Int)
  | newConversation
deriving DecidableEq

/-- Externally visible effects a handler performs, in program order: WebSocket
sends and REST requests (`apiRequest`). -/

inductive Effect
  | wsSend (cmd : Command)
  | deleteRequest (conversationId : Int)
  | listRequest
deriving DecidableEq

/-- Mark exactly the sidebar entry with the given conversation id active
(`classList.remove('active')` on all items, then `add('active')` on the
matching one). -/

def setSidebarActive (sb : Sidebar) (conversationId : Int) : Sidebar :=
  match sb with
  | Sidebar.items l => Sidebar.items (l.map fun p => (p.1, p.1.id == conversationId))
  | x => x

/-- Remove the active mark from every sidebar entry. -/

def clearSidebarActive (sb : Sidebar) : Sidebar :=
  match sb with
  | Sidebar.items l => Sidebar.items (l.map fun p => (p.1, false))
  | x => x

/-- Source `loadConversation(conversationId)`: synchronously assigns
`currentConversationId`, re-marks the sidebar, and requests the history over
the socket.  It does not touch `currentAssistantMessage` or the container. -/

def loadConversation (conversationId : Int) (st : ChatState) : ChatState × List Effect :=
  ({ st with
      currentConversationId := some conversationId,
      sidebar := setSidebarActive st.sidebar conversationId },
   [Effect.wsSend (Command.loadHistory conversationId)])

/-! ### Sending a user message (C9) -/


/-- Remove the first `.welcome-message` element (document order) from the
container, as `document.querySelector('.welcome-message')?.remove()` does.
The heap entry remains; only attachment changes. -/

def removeFirstWelcome (elems : List (Nat × ElemVal)) : List Nat → List Nat
  | [] => []
  | id :: rest =>
    if lookupElem elems id = some ElemVal.welcome then rest
    else id :: removeFirstWelcome elems rest

/-- Drop leading whitespace characters. -/

def dropWhitespaceLead : List Char → List Char
  | [] => []
  | c :: cs => if c.isWhitespace then dropWhitespaceLead cs else c :: cs

/-- Models `String.prototype.trim`: strip whitespace from both ends. -/

def jsTrim (s : String) : String :=
  String.mk ((dropWhitespaceLead (dropWhitespaceLead s.data).reverse).reverse)

/-- Source `sendMessage()`: trims the input; if the trimmed text is empty or the
client is not connected, returns without doing anything.  Otherwise clears the
input, removes the welcome banner if visible, and sends exactly one
`chat_message` command carrying the trimmed text and the current conversation
id.  No message element is created locally. -/

def sendMessage (st : ChatState) : ChatState × List Effect :=
  let message := jsTrim st.inputValue
  if message = "" ∨ st.isConnected = false then (st, [])
  else
    let st1 := { st with inputValue := "" }
    let st2 := { st1 with container := removeFirstWelcome st1.elems st1.container }
    (st2, [Effect.wsSend (Command.chatMessage message st.currentConversationId)])

/-! ### New chat and deletion (C4) -/


/-- Source `startNewChat()`: clears `currentConversationId` and
`currentAssistantMessage`, replaces the chat window contents with the welcome
banner, clears the sidebar active marks, and asks the server for a new
conversation. -/

def startNewChat (st : ChatState) : ChatState × List Effect :=
  let st1 := { st with currentConversationId := none, currentAssistantMessage := none }
  let (st2, wid) := allocElem st1 ElemVal.welcome
  ({ st2 with container := [wid], sidebar := clearSidebarActive st2.sidebar },
   [Effect.wsSend Command.newConversation])

/-- Source `displayConversations(conversations)`: renders the sidebar; an entry is
marked active exactly when its id equals `currentConversationId`. -/

def displayConversations (conversations : List Conv) (st : ChatState) : ChatState :=
  if conversations = [] then { st with sidebar := Sidebar.emptyState }
  else
    { st with
        sidebar := Sidebar.items (conversations.map fun c =>
          (c, st.currentConversationId == some c.id)) }

/-- Source `loadConversations()`: fetches the summary list (`listResult`, `none` when
the request failed) and renders it; on failure the sidebar shows the
empty-state placeholder, exactly as the `catch` branch writes. -/

def loadConversations (listResult : Option (List Conv)) (st : ChatState) : ChatState :=
  match listResult with
  | some conversations => displayConversations conversations st
  | none => { st with sidebar := Sidebar.emptyState }

/-- Source `clearCurrentChat()`.  `confirmed` is the result of the `confirm` dialog;
`deleteOk` whether the DELETE request succeeded (`apiRequest` resolving rather
than throwing); `listResult` the outcome of the subsequent list refresh.  All
local mutation sits after the `await` of the delete, so a failed delete
reaches only the `catch` block. -/

def clearCurrentChat (st : ChatState) (confirmed deleteOk : Bool)
    (listResult : Option (List Conv)) : ChatState × List Effect :=
  match st.currentConversationId with
  | none => startNewChat st
  | some cid =>
    if confirmed = false then (st, [])
    else if deleteOk then
      let st1 := { st with
        currentConversationId := none,
        currentAssistantMessage := none,
        sidebar := Sidebar.loadingState }
      let st2 := loadConversations listResult st1
      let (st3, effs) := startNewChat st2
      ({ st3 with toasts := st3.toasts ++ [("Conversation deleted permanently", "success")] },
       Effect.deleteRequest cid :: Effect.listRequest :: effs)
    else
      (showToast st "Failed to delete conversation" "error", [Effect.deleteRequest cid])

/-! ### Connection lifecycle and reconnection (C2)

`connectWebSocket` / `handleWebSocketOpen` / `handleWebSocketError` /
`handleWebSocketClose` manage one global socket, the `isConnected` flag, and
the reconnect timer.  We model the event loop view of this code: the pending
reconnect callbacks scheduled by `setTimeout` (each carrying its fixed delay),
the `isConnected` flag, and a counter of `connectWebSocket` invocations (each
of which constructs a new `WebSocket`).  `handleWebSocketClose` always
schedules its callback; nothing in the file ever calls `clearTimeout`, so a
scheduled callback always runs — its body merely re-checks `isConnected` when
it fires. -/

structure ConnState where
  /-- global `isConnected` (set on `onopen`, cleared on error/close). -/
  isConnected : Bool
  /-- delays (ms) of the scheduled, not-yet-fired reconnect callbacks, FIFO. -/
  pendingRetries : List Nat
  /-- how many times `connectWebSocket()` has run, i.e. sockets constructed. -/
  connectCount : Nat
deriving DecidableEq

/-- Connection-lifecycle events as serialized on the event loop. -/

inductive ConnEvent
  /-- the transport `close` event: `handleWebSocketClose`. -/
  | closeEvt
  /-- the transport `error` event: `handleWebSocketError`. -/
  | errorEvt
  /-- the transport `open` event: `handleWebSocketOpen`. -/
  | openEvt
  /-- an explicit call to `connectWebSocket()` (manual reconnect). -/
  | manualConnect
  /-- the oldest pending reconnect callback fires. -/
  | timerFire
deriving DecidableEq

/-- One event-loop step of the connection lifecycle code. -/

def connStep (st : ConnState) (e : ConnEvent) : ConnState :=
  match e with
  | ConnEvent.closeEvt =>
    { st with isConnected := false, pendingRetries := st.pendingRetries ++ [3000] }
  | ConnEvent.errorEvt => { st with isConnected := false }
  | ConnEvent.openEvt => { st with isConnected := true }
  | ConnEvent.manualConnect => { st with connectCount := st.connectCount + 1 }
  | ConnEvent.timerFire =>
    match st.pendingRetries with
    | [] => st
    | _ :: rest =>
      if st.isConnected then { st with pendingRetries := rest }
      else { st with pendingRetries := rest, connectCount := st.connectCount + 1 }

/-! ### Markdown renderer: user-authored content (C7)

`markdown-renderer.js`.  `escapeHtml` works by writing `textContent` and
reading back `innerHTML`; we model the browser's text-node serialization,
which escapes the markup-significant characters `&`, `<` and `>`. -/


/-- Browser serialization of one character of a text node. -/

def escapeHtmlChar (c : Char) : List Char :=
  if c = '&' then "&amp;".data
  else if c = '<' then "&lt;".data
  else if c = '>' then "&gt;".data
  else [c]

/-- Modelled from the external DOM: `escapeHtml(text)`
(`div.textContent = text; return div.innerHTML`). -/

def escapeHtml (text : String) : String :=
  String.mk (text.data.flatMap escapeHtmlChar)

/-- Source `.replace` of every newline with `<br>`. -/

def newlineToBr (l : List Char) : List Char :=
  l.flatMap fun c => if c = '\n' then "<br>".data else [c]

/-! ### Markdown renderer: code block wrapping (C5)

`wrapCodeBlocks` is a global regex replace with
`/<pre><code class="language-(\w+)">([\s\S]*?)<\/code><\/pre>/g`.
We implement that specific regex faithfully as a left-to-right scan:
at each position try to match the literal opening, then one-or-more word
characters (the `(\w+)` group; greedy, but since `"` is not a word
character the maximal run is the only candidate), the literal `">`,
and a lazy capture up to the first `</code></pre>`.  A match is replaced
by the wrapper template and scanning resumes after the consumed text;
otherwise one character is copied and scanning advances. -/


/-- JavaScript `\w`: `[A-Za-z0-9_]`. -/

def isWordChar (c : Char) : Bool :=
  c.isAlphanum || c = '_'

/-- Match a literal character sequence at the head of a list, returning the
remainder on success. -/

def matchLit : List Char → List Char → Option (List Char)
  | [], s => some s
  | _ :: _, [] => none
  | c :: cs, d :: ds => if c = d then matchLit cs ds else none

/-- The literal head of the regex: `<pre><code class="language-`. -/

def openLit : List Char := "<pre><code class=\"language-".data

/-- The literal closing the capture: `</code></pre>`. -/

def closeLit : List Char := "</code></pre>".data

/-- Maximal run of word characters and the remainder (the `(\w+)` group). -/

def takeWord : List Char → List Char × List Char
  | [] => ([], [])
  | c :: cs =>
    if isWordChar c then
      let p := takeWord cs
      (c :: p.1, p.2)
    else ([], c :: cs)

/-- Lazy capture (`([\s\S]*?)`): the shortest prefix after which the literal
`close` matches, with the remainder after `close`; `none` if `close` never
occurs. -/

def captureUntil (close : List Char) : List Char → Option (List Char × List Char)
  | [] => none
  | c :: cs =>
    match matchLit close (c :: cs) with
    | some rest => some ([], rest)
    | none =>
      match captureUntil close cs with
      | some p => some (c :: p.1, p.2)
      | none => none

/-- Attempt the code-block regex at the head of `s`; on success returns the
captured language, the captured code, and the text after the match. -/

def tryCodeBlockAt (s : List Char) : Option (List Char × List Char × List Char) :=
  match matchLit openLit s with
  | none => none
  | some s1 =>
    match takeWord s1 with
    | (lang, s2) =>
      if lang = [] then none
      else
        match matchLit ('"' :: '>' :: []) s2 with
        | none => none
        | some s3 =>
          match captureUntil closeLit s3 with
          | none => none
          | some (code, rest) => some (lang, code, rest)

/-- The replacement template of `wrapCodeBlocks`, with the two captured groups
substituted: a `code-block-wrapper` div exposing the language tag in a
`code-language` span, a `btn-copy-code` copy-to-clipboard button, and the
original pre/code block. -/

def wrapTpl (lang code : List Char) : List Char :=
  "\n            <div class=\"code-block-wrapper\">\n                <div class=\"code-block-header\">\n                    <span class=\"code-language\">".data ++
  lang ++
  "</span>\n                    <button class=\"btn-copy-code\" onclick=\"copyCode(this)\">Copy</button>\n                </div>\n                <pre><code class=\"language-".data ++
  lang ++
  "\">".data ++
  code ++
  "</code></pre>\n            </div>\n        ".data

/-- The global-replace scan.  `fuel` bounds the number of steps; every step
consumes at least one character, so `s.length` steps always complete the
scan (fuel `0` returns the remaining text unchanged). -/

def wrapScan : Nat → List Char → List Char
  | 0, s => s
  | _ + 1, [] => []
  | fuel + 1, c :: cs =>
    match tryCodeBlockAt (c :: cs) with
    | some (lang, code, rest) => wrapTpl lang code ++ wrapScan fuel rest
    | none => c :: wrapScan fuel cs

/-- Source `wrapCodeBlocks(html)` from `markdown-renderer.js`. -/

def wrapCodeBlocks (html : String) : String :=
  String.mk (wrapScan html.data.length html.data)

/-- Modelled from the spec: the external `marked.parse` (markdown parsing is
out of scope, §1/§4.4), restricted to the fragment the claims exercise — a
document that is one fenced code block.  GFM fence output is
`<pre><code class="language-L">CODE\n</code></pre>\n` when the fence carries a
language tag `L`, and `<pre><code>CODE\n</code></pre>\n` when it carries none
(`CODE` being the already-entity-escaped body, hence free of `<`). -/

def markedFenceHtml (lang : Option String) (code : String) : String :=
  match lang with
  | some l => "<pre><code class=\"language-" ++ l ++ "\">" ++ code ++ "\n</code></pre>\n"
  | none => "<pre><code>" ++ code ++ "\n</code></pre>\n"

/-- Substring test (used to state that no wrapper was produced). -/

def hasSub : List Char → List Char → Bool
  | l, sub =>
    match l with
    | [] => (matchLit sub []).isSome
    | _ :: cs => (matchLit sub l).isSome || hasSub cs sub

/-- Source `processMessageContent(content, isUser)`.  User-authored content is
HTML-escaped with newlines turned into `<br>`; otherwise the content is
rendered by `renderMarkdown`, i.e. parsed as markdown by the external
`marked.parse` — whose output for the given content is passed here as
`parsedMarkdownHtml` — and post-processed by `wrapCodeBlocks` (empty content
short-circuits to the empty string, as `if (!markdown) return ''` does). -/

def processMessageContent (content : String) (isUser : Bool)
    (parsedMarkdownHtml : String) : String :=
  if isUser then String.mk (newlineToBr (escapeHtml content).data)
  else if content = "" then "" else wrapCodeBlocks parsedMarkdownHtml

/-- Modelled from the spec: parsing the produced HTML back and reading the
rendered page text content — `<br>` elements render as line breaks, character
entities decode to their characters, and everything else is literal text. -/

def parseRenderedChars : List Char → List Char
  | [] => []
  | c :: rest =>
    if c = '<' then
      match rest with
      | 'b' :: 'r' :: '>' :: rest2 => '\n' :: parseRenderedChars rest2
      | other => '<' :: parseRenderedChars other
    else if c = '&' then
      match rest with
      | 'a' :: 'm' :: 'p' :: ';' :: rest2 => '&' :: parseRenderedChars rest2
      | 'l' :: 't' :: ';' :: rest2 => '<' :: parseRenderedChars rest2
      | 'g' :: 't' :: ';' :: rest2 => '>' :: parseRenderedChars rest2
      | other => '&' :: parseRenderedChars other
    else c :: parseRenderedChars rest

/-- Rendered page text content of an HTML string. -/

def parseRenderedText (html : String) : String :=
  String.mk (parseRenderedChars html.data)

/-! ## Theorems -/

/-- C6: a frame that is malformed JSON, or that carries an unrecognized type
tag, causes no state transition at all — conversation id, streaming message,
typing indicator, message list, connection flag, everything is unchanged — and
the handler, being a total function, lets no exception escape. -/

theorem malformed_and_unknown_frames_are_noops
    (nowTs tag raw : String) (st : ChatState) :
    handleWebSocketMessage nowTs (Frame.unknown tag) st = st ∧
    handleWebSocketMessage nowTs (Frame.malformed raw) st = st := by
  constructor <;> rfl

/-- C8: an `error{message}` frame in any state clears the typing indicator and
appends an error toast, and changes nothing else: conversation id, streaming
reference, element heap and displayed container are all untouched (a partially
streamed message stays visible and unfinalized). -/

theorem error_frame_only_clears_typing
    (nowTs m : String) (st : ChatState) :
    handleWebSocketMessage nowTs (Frame.error m) st =
      { st with typing := false, toasts := st.toasts ++ [(m, "error")] } := by
  rfl

/-! ### Streaming chunk accumulation (C1, C10) -/


/-- Looking up the id just written by `setRawContent` returns the element with
its content replaced (role and timestamp kept). -/

theorem lookupElem_setRawContent (e : List (Nat × ElemVal)) (id : Nat)
    (r : Role) (c ts s : String)
    (h : lookupElem e id = some (ElemVal.message r c ts)) :
    lookupElem (setRawContent e id s) id = some (ElemVal.message r s ts) := by
  induction e with
  | nil => simp [lookupElem] at h
  | cons p rest ih =>
    obtain ⟨i, v⟩ := p
    by_cases hi : i = id
    · subst hi
      simp [lookupElem, setRawContent] at h ⊢
      simp [h]
    · simp [lookupElem, setRawContent, hi] at h ⊢
      exact ih h

/-- A chunk arriving while a streaming message is open only rewrites that
element's raw content, appending the chunk verbatim. -/

theorem appendAssistantMessageChunk_some (nowTs c : String) (st : ChatState)
    (id : Nat) (r : Role) (s ts : String)
    (h1 : st.currentAssistantMessage = some id)
    (h2 : lookupElem st.elems id = some (ElemVal.message r s ts)) :
    appendAssistantMessageChunk nowTs c st =
      { st with elems := setRawContent st.elems id (s ++ c) } := by
  simp [appendAssistantMessageChunk, h1, h2, rawContentOf]

/-- A chunk arriving with no streaming message open allocates a fresh assistant
element, appends it to the container, points `currentAssistantMessage` at it,
and stores the chunk (appended to the empty string). -/

theorem appendAssistantMessageChunk_none (nowTs c : String) (st : ChatState)
    (h : st.currentAssistantMessage = none) :
    appendAssistantMessageChunk nowTs c st =
      { st with
          elems := (st.nextId, ElemVal.message Role.assistant ("" ++ c) nowTs) :: st.elems,
          nextId := st.nextId + 1,
          container := st.container ++ [st.nextId],
          currentAssistantMessage := some st.nextId } := by
  simp [appendAssistantMessageChunk, h, allocElem, lookupElem, rawContentOf, setRawContent]

/-- Folding a run of chunk frames over a state with an open streaming element
accumulates exactly the left-fold concatenation of the chunks into that
element, and touches neither the reference nor the container. -/

theorem chunk_run_accumulates (nowTs : String) (cs : List String) :
    ∀ (st : ChatState) (id : Nat) (r : Role) (s ts : String),
      st.currentAssistantMessage = some id →
      lookupElem st.elems id = some (ElemVal.message r s ts) →
      let st' := cs.foldl (fun t c => handleWebSocketMessage nowTs (Frame.chunk c) t) st
      st'.currentAssistantMessage = some id ∧
      lookupElem st'.elems id = some (ElemVal.message r (cs.foldl (· ++ ·) s) ts) ∧
      st'.container = st.container := by
  induction cs with
  | nil => intro st id r s ts h1 h2; exact ⟨h1, h2, rfl⟩
  | cons c cs ih =>
    intro st id r s ts h1 h2
    have hstep : handleWebSocketMessage nowTs (Frame.chunk c) st =
        { st with elems := setRawContent st.elems id (s ++ c) } := by
      simpa [handleWebSocketMessage] using
        appendAssistantMessageChunk_some nowTs c st id r s ts h1 h2
    have h2' : lookupElem (setRawContent st.elems id (s ++ c)) id =
        some (ElemVal.message r (s ++ c) ts) :=
      lookupElem_setRawContent st.elems id r s ts (s ++ c) h2
    have := ih { st with elems := setRawContent st.elems id (s ++ c) } id r (s ++ c) ts h1 h2'
    simpa [List.foldl_cons, hstep] using this

/-- C1: a nonempty run of `assistant_message_chunk` frames followed by one
`assistant_message_complete` finalizes an assistant message whose raw content
is the exact concatenation of the chunk texts in arrival order — nothing
inserted, dropped, reordered or trimmed — and the element stays appended at the
end of the message container while the streaming slot is released. -/

theorem chunks_then_complete_concatenates (nowTs : String) (st : ChatState)
    (c0 : String) (cs : List String)
    (h : st.currentAssistantMessage = none) :
    let st' := handleWebSocketMessage nowTs Frame.complete
      ((c0 :: cs).foldl (fun t c => handleWebSocketMessage nowTs (Frame.chunk c) t) st)
    lookupElem st'.elems st.nextId =
      some (ElemVal.message Role.assistant ((c0 :: cs).foldl (· ++ ·) "") nowTs) ∧
    st'.container = st.container ++ [st.nextId] ∧
    st'.currentAssistantMessage = none ∧
    st'.typing = false := by
  intro st'
  have hfirst : handleWebSocketMessage nowTs (Frame.chunk c0) st =
      { st with
          elems := (st.nextId, ElemVal.message Role.assistant ("" ++ c0) nowTs) :: st.elems,
          nextId := st.nextId + 1,
          container := st.container ++ [st.nextId],
          currentAssistantMessage := some st.nextId } := by
    simpa [handleWebSocketMessage] using appendAssistantMessageChunk_none nowTs c0 st h
  set st1 : ChatState :=
    { st with
        elems := (st.nextId, ElemVal.message Role.assistant ("" ++ c0) nowTs) :: st.elems,
        nextId := st.nextId + 1,
        container := st.container ++ [st.nextId],
        currentAssistantMessage := some st.nextId } with hst1
  have hrun := chunk_run_accumulates nowTs cs st1 st.nextId Role.assistant ("" ++ c0) nowTs
    (by simp [hst1]) (by simp [hst1, lookupElem])
  obtain ⟨hc, hl, hcont⟩ := hrun
  refine ⟨?_, ?_, ?_, ?_⟩
  · show lookupElem st'.elems st.nextId = _
    simp only [st', List.foldl_cons, hfirst, ← hst1]
    simpa [handleWebSocketMessage, completeAssistantMessage, toggleTypingIndicator] using hl
  · show st'.container = _
    simp only [st', List.foldl_cons, hfirst, ← hst1]
    simpa [handleWebSocketMessage, completeAssistantMessage, toggleTypingIndicator, hst1]
      using hcont
  · simp [st', handleWebSocketMessage, completeAssistantMessage, toggleTypingIndicator]
  · simp [st', handleWebSocketMessage, completeAssistantMessage, toggleTypingIndicator]

/-- Witness for C1, on the spec's own scenario: chunks `"Hel"`, `"lo "`,
`"world"` then complete yield raw content `"Hello world"`. -/

theorem chunks_then_complete_concatenates_witness :
    initChatState.currentAssistantMessage = none ∧
    (let st' := handleWebSocketMessage "now" Frame.complete
        ((["Hel", "lo ", "world"]).foldl
          (fun t c => handleWebSocketMessage "now" (Frame.chunk c) t) initChatState)
     lookupElem st'.elems 0 = some (ElemVal.message Role.assistant "Hello world" "now")) := by
  refine ⟨rfl, ?_⟩
  have h := chunks_then_complete_concatenates "now" initChatState "Hel" ["lo ", "world"] rfl
  simpa using h.1

/-- Appending one history message extends the visible list by exactly that
message's element and preserves boundedness. -/

theorem visibleMsgs_appendHistMsg (st : ChatState) (m : HistMsg)
    (hb : containerBounded st) :
    visibleMsgs (appendHistMsg st m) = visibleMsgs st ++ [elemOfHist m] ∧
    containerBounded (appendHistMsg st m) := by
  constructor
  · show (st.container ++ [st.nextId]).filterMap
        (lookupElem ((st.nextId, elemOfHist m) :: st.elems)) = _
    rw [List.filterMap_append]
    congr 1
    · exact List.filterMap_congr fun id hid => by
        have : id ≠ st.nextId := Nat.ne_of_lt (hb id hid)
        simp [lookupElem, Ne.symm this]
    · simp [List.filterMap, lookupElem]
  · intro id hid
    simp only [appendHistMsg, allocElem, List.mem_append, List.mem_singleton] at hid
    rcases hid with h | h
    · exact Nat.lt_succ_of_lt (hb id h)
    · simp [appendHistMsg, allocElem, h]

/-- Folding the history loop over a bounded state appends exactly the payload's
elements to the visible list. -/

theorem visibleMsgs_hist_fold (msgs : List HistMsg) :
    ∀ st : ChatState, containerBounded st →
      visibleMsgs (msgs.foldl appendHistMsg st) = visibleMsgs st ++ msgs.map elemOfHist := by
  induction msgs with
  | nil => intro st _; simp
  | cons m ms ih =>
    intro st hb
    obtain ⟨hv, hb'⟩ := visibleMsgs_appendHistMsg st m hb
    rw [List.foldl_cons, ih (appendHistMsg st m) hb', hv]
    simp

/-- A single `history` frame leaves exactly the payload's messages visible,
whatever was displayed before. -/

theorem visibleMsgs_history (nowTs : String) (st : ChatState) (msgs : List HistMsg) :
    visibleMsgs (handleWebSocketMessage nowTs (Frame.history msgs) st) =
      msgs.map elemOfHist := by
  show visibleMsgs (msgs.foldl appendHistMsg { st with container := [] }) = _
  rw [visibleMsgs_hist_fold msgs { st with container := [] } (by intro id hid; simp at hid)]
  simp [visibleMsgs]

/-- C3: a `history{messages}` frame fully replaces the displayed list rather
than appending: after any two consecutive history frames, whatever was shown
before and whatever the first payload was, exactly the second payload's
messages are visible, in payload order. -/

theorem history_fully_replaces (nowTs : String) (st : ChatState)
    (m1 m2 : List HistMsg) :
    visibleMsgs (handleWebSocketMessage nowTs (Frame.history m2)
        (handleWebSocketMessage nowTs (Frame.history m1) st)) =
      m2.map elemOfHist := by
  exact visibleMsgs_history nowTs _ m2

/-- C10: switching conversations sets `currentConversationId` synchronously —
only a `load_history` command is emitted; no history has been applied yet —
and leaves an open streaming message untouched, so a chunk arriving after the
switch but before the next completion is still appended to the streaming
element opened under the previous conversation. -/

theorem loadConversation_sets_id_and_keeps_stream
    (conversationId : Int) (nowTs c : String) (st : ChatState)
    (i : Nat) (r : Role) (s ts : String)
    (h1 : st.currentAssistantMessage = some i)
    (h2 : lookupElem st.elems i = some (ElemVal.message r s ts)) :
    (loadConversation conversationId st).1.currentConversationId = some conversationId ∧
    (loadConversation conversationId st).1.currentAssistantMessage = some i ∧
    (loadConversation conversationId st).1.container = st.container ∧
    (loadConversation conversationId st).2 =
      [Effect.wsSend (Command.loadHistory conversationId)] ∧
    (handleWebSocketMessage nowTs (Frame.chunk c)
        (loadConversation conversationId st).1).currentAssistantMessage = some i ∧
    lookupElem (handleWebSocketMessage nowTs (Frame.chunk c)
        (loadConversation conversationId st).1).elems i =
      some (ElemVal.message r (s ++ c) ts) := by
  have key : handleWebSocketMessage nowTs (Frame.chunk c) (loadConversation conversationId st).1 =
      { (loadConversation conversationId st).1 with
          elems := setRawContent (loadConversation conversationId st).1.elems i (s ++ c) } := by
    simpa [handleWebSocketMessage] using
      appendAssistantMessageChunk_some nowTs c
        (loadConversation conversationId st).1 i r s ts h1 h2
  refine ⟨rfl, h1, rfl, rfl, ?_, ?_⟩
  · rw [key]; exact h1
  · rw [key]
    exact lookupElem_setRawContent st.elems i r s ts (s ++ c) h2

/-- Witness for C10: a state streaming `"par"` under conversation 1, switched
to conversation 2, still appends the next chunk to the old element. -/

theorem loadConversation_sets_id_and_keeps_stream_witness :
    (let st0 : ChatState :=
      { currentConversationId := some 1, currentAssistantMessage := some 0, nextId := 1,
        elems := [(0, ElemVal.message Role.assistant "par" "t0")], container := [0],
        typing := true, isConnected := true, inputValue := "", toasts := [],
        sidebar := Sidebar.items [] }
     let p := loadConversation 2 st0
     p.1.currentConversationId = some 2 ∧
     p.1.currentAssistantMessage = some 0 ∧
     p.1.container = [0] ∧
     p.2 = [Effect.wsSend (Command.loadHistory 2)] ∧
     (let st2 := handleWebSocketMessage "now" (Frame.chunk "tial") p.1
      st2.currentAssistantMessage = some 0 ∧
      lookupElem st2.elems 0 = some (ElemVal.message Role.assistant "partial" "t0"))) := by
  exact loadConversation_sets_id_and_keeps_stream 2 "now" "tial" _ 0 Role.assistant "par" "t0"
    rfl (by simp [lookupElem])

/-- C9: `sendMessage` is a no-op — no command emitted, no state mutated —
unless the trimmed input is nonempty and the connection is open; when both
hold it emits exactly one `chat_message` command carrying the trimmed text and
`currentConversationId`, clears the input, removes the welcome banner, and
echoes nothing locally (heap, streaming slot, conversation id, toasts all
unchanged; the container only loses the welcome banner). -/

theorem sendMessage_gated_and_no_echo (st : ChatState) :
    (jsTrim st.inputValue = "" ∨ st.isConnected = false → sendMessage st = (st, [])) ∧
    (jsTrim st.inputValue ≠ "" → st.isConnected = true →
      sendMessage st =
        ({ st with
            inputValue := "",
            container := removeFirstWelcome st.elems st.container },
         [Effect.wsSend (Command.chatMessage (jsTrim st.inputValue) st.currentConversationId)])) := by
  constructor
  · intro h
    simp [sendMessage, h]
  · intro h1 h2
    have : ¬ (jsTrim st.inputValue = "" ∨ st.isConnected = false) := by
      simp [h1, h2]
    simp [sendMessage, this]

/-- Witness for C9, both branches at concrete states: whitespace-only input is
dropped, and a connected state with input `" hi "` emits the trimmed command
without echoing a message element. -/

theorem sendMessage_gated_and_no_echo_witness :
    (sendMessage { initChatState with inputValue := "   " } =
      ({ initChatState with inputValue := "   " }, [])) ∧
    (sendMessage { initChatState with inputValue := " hi ", currentConversationId := some 7 } =
      ({ initChatState with inputValue := "", currentConversationId := some 7 },
       [Effect.wsSend (Command.chatMessage "hi" (some 7))])) := by
  constructor
  · exact (sendMessage_gated_and_no_echo _).1 (Or.inl (by decide))
  · have h := (sendMessage_gated_and_no_echo
      { initChatState with inputValue := " hi ", currentConversationId := some 7 }).2
      (by decide) rfl
    simpa [removeFirstWelcome, initChatState] using h

/-- C4: deleting the current conversation mutates nothing until the delete
request has succeeded.  On failure the state is unchanged except for an error
toast, and only the delete request was issued.  On success the effect order is
delete, then list refresh, then the new-conversation reset command; the final
state has the conversation id and streaming slot cleared, the refreshed
sidebar (rendered with no conversation active), the welcome banner as sole
chat content, and a success toast. -/

theorem clearCurrentChat_atomic_on_failure (st : ChatState) (cid : Int)
    (conversations : List Conv)
    (h : st.currentConversationId = some cid) :
    (clearCurrentChat st true false (some conversations) =
      ({ st with toasts := st.toasts ++ [("Failed to delete conversation", "error")] },
       [Effect.deleteRequest cid])) ∧
    ((clearCurrentChat st true true (some conversations)).2 =
      [Effect.deleteRequest cid, Effect.listRequest, Effect.wsSend Command.newConversation]) ∧
    ((clearCurrentChat st true true (some conversations)).1.currentConversationId = none) ∧
    ((clearCurrentChat st true true (some conversations)).1.currentAssistantMessage = none) ∧
    ((clearCurrentChat st true true (some conversations)).1.sidebar =
      clearSidebarActive (if conversations = [] then Sidebar.emptyState
        else Sidebar.items (conversations.map fun c => (c, false)))) ∧
    ((clearCurrentChat st true true (some conversations)).1.container = [st.nextId]) ∧
    (lookupElem (clearCurrentChat st true true (some conversations)).1.elems st.nextId =
      some ElemVal.welcome) ∧
    ((clearCurrentChat st true true (some conversations)).1.toasts =
      st.toasts ++ [("Conversation deleted permanently", "success")]) := by
  refine ⟨?_, ?_, ?_, ?_, ?_, ?_, ?_, ?_⟩ <;>
    by_cases hc : conversations = [] <;>
      simp [clearCurrentChat, h, showToast, startNewChat, allocElem, clearSidebarActive,
        loadConversations, displayConversations, lookupElem, hc]

/-- Witness for C4 at a concrete state holding conversation 5 with one message
on screen: the failed delete leaves everything but the toast list unchanged;
the successful delete resets to the welcome screen in the stated order. -/

theorem clearCurrentChat_atomic_on_failure_witness :
    (clearCurrentChat
        { currentConversationId := some 5, currentAssistantMessage := none, nextId := 1,
          elems := [(0, ElemVal.message Role.user "hi" "t")], container := [0],
          typing := false, isConnected := true, inputValue := "", toasts := [],
          sidebar := Sidebar.items [] }
        true false (some []) =
      ({ currentConversationId := some 5, currentAssistantMessage := none, nextId := 1,
          elems := [(0, ElemVal.message Role.user "hi" "t")], container := [0],
          typing := false, isConnected := true, inputValue := "",
          toasts := [("Failed to delete conversation", "error")],
          sidebar := Sidebar.items [] },
       [Effect.deleteRequest 5])) ∧
    ((clearCurrentChat
        { currentConversationId := some 5, currentAssistantMessage := none, nextId := 1,
          elems := [(0, ElemVal.message Role.user "hi" "t")], container := [0],
          typing := false, isConnected := true, inputValue := "", toasts := [],
          sidebar := Sidebar.items [] }
        true true (some [])).2 =
      [Effect.deleteRequest 5, Effect.listRequest, Effect.wsSend Command.newConversation]) := by
  have h := clearCurrentChat_atomic_on_failure
    { currentConversationId := some 5, currentAssistantMessage := none, nextId := 1,
      elems := [(0, ElemVal.message Role.user "hi" "t")], container := [0],
      typing := false, isConnected := true, inputValue := "", toasts := [],
      sidebar := Sidebar.items [] } 5 [] rfl
  exact ⟨h.1, h.2.1⟩

/-- Counterexample to C2 as stated: socket closes, a manual reconnect is
initiated (the new socket has not reached `open`, so `isConnected` is still
false), then the scheduled callback fires.  The code never cancels the timer
and its `!isConnected` guard passes, so a second `connectWebSocket` runs:
two connects after the close, a double-connect, where the claim demands the
manual reconnect suppress the scheduled one. -/

theorem manual_reconnect_does_not_cancel_timer :
    ([ConnEvent.closeEvt, ConnEvent.manualConnect, ConnEvent.timerFire].foldl connStep
        { isConnected := true, pendingRetries := [], connectCount := 0 }) =
      { isConnected := false, pendingRetries := [], connectCount := 2 } ∧
    ¬ ([ConnEvent.closeEvt, ConnEvent.manualConnect, ConnEvent.timerFire].foldl connStep
        { isConnected := true, pendingRetries := [], connectCount := 0 }).connectCount = 1 := by
  constructor
  · rfl
  · decide

/-- C2 (amended): every transport close schedules exactly one reconnect
callback with the fixed 3-second delay, and that callback, when it fires, is a
no-op whenever the client is already connected — so a manual reconnect
suppresses the scheduled attempt only if it has reached the `open` state
before the delay elapses.  The timer itself is never cancelled, and a manual
reconnect still connecting when it fires does not prevent a second connection
attempt (see the counterexample). -/

theorem close_schedules_one_retry_and_fire_is_guarded (st : ConnState) :
    (connStep st ConnEvent.closeEvt =
      { st with isConnected := false, pendingRetries := st.pendingRetries ++ [3000] }) ∧
    (st.isConnected = true →
      (connStep st ConnEvent.timerFire).connectCount = st.connectCount) ∧
    (st.isConnected = false → st.pendingRetries ≠ [] →
      (connStep st ConnEvent.timerFire).connectCount = st.connectCount + 1) := by
  refine ⟨rfl, ?_, ?_⟩
  · intro h
    cases hp : st.pendingRetries with
    | nil => simp [connStep, hp]
    | cons a rest => simp [connStep, hp, h]
  · intro h hp
    cases hq : st.pendingRetries with
    | nil => exact absurd hq hp
    | cons a rest => simp [connStep, hq, h]

/-- Witness for the amended C2: after a close the retry list has gained one
3000 ms entry; a fire in the connected state leaves the connect count alone;
a fire while disconnected performs the retry. -/

theorem close_schedules_one_retry_and_fire_is_guarded_witness :
    (connStep { isConnected := true, pendingRetries := [], connectCount := 1 }
        ConnEvent.closeEvt =
      { isConnected := false, pendingRetries := [3000], connectCount := 1 }) ∧
    ((connStep { isConnected := true, pendingRetries := [3000], connectCount := 1 }
        ConnEvent.timerFire).connectCount = 1) ∧
    ((connStep { isConnected := false, pendingRetries := [3000], connectCount := 1 }
        ConnEvent.timerFire).connectCount = 2) := by
  refine ⟨?_, ?_, ?_⟩
  · exact (close_schedules_one_retry_and_fire_is_guarded _).1
  · exact (close_schedules_one_retry_and_fire_is_guarded _).2.1 rfl
  · exact (close_schedules_one_retry_and_fire_is_guarded _).2.2 rfl (by decide)

/-- Parsing back the encoding of one character, whatever follows, recovers the
character: the escape of `&`, `<`, `>`, the `<br>` produced from a newline,
and any other character verbatim. -/

theorem parseRenderedChars_enc (c : Char) (rest : List Char) :
    parseRenderedChars (newlineToBr (escapeHtmlChar c) ++ rest) =
      c :: parseRenderedChars rest := by
  by_cases h1 : c = '&'
  · subst h1; rfl
  by_cases h2 : c = '<'
  · subst h2; rfl
  by_cases h3 : c = '>'
  · subst h3; rfl
  by_cases h4 : c = '\n'
  · subst h4; rfl
  · have henc : escapeHtmlChar c = [c] := by simp [escapeHtmlChar, h1, h2, h3]
    have hbr : newlineToBr [c] = [c] := by simp [newlineToBr, h4]
    rw [henc, hbr]
    rw [parseRenderedChars.eq_def]
    simp [h1, h2]

/-- The whole user-authored pipeline round-trips character by character. -/

theorem parseRenderedChars_roundtrip (l : List Char) :
    parseRenderedChars (newlineToBr (l.flatMap escapeHtmlChar)) = l := by
  induction l with
  | nil => rfl
  | cons c cs ih =>
    rw [List.flatMap_cons]
    show parseRenderedChars (newlineToBr (escapeHtmlChar c ++ cs.flatMap escapeHtmlChar)) = _
    have : newlineToBr (escapeHtmlChar c ++ cs.flatMap escapeHtmlChar) =
        newlineToBr (escapeHtmlChar c) ++ newlineToBr (cs.flatMap escapeHtmlChar) := by
      simp [newlineToBr]
    rw [this, parseRenderedChars_enc, ih]

/-- C7: rendering user-authored content never interprets `*`, a backtick or
`<` as formatting — the output is exactly the HTML-escaped input with newlines
turned into `<br>` — and parsing that HTML back yields the original text as
the rendered page text content, for every input string. -/

theorem user_content_roundtrips (content parsedMarkdownHtml : String) :
    processMessageContent content true parsedMarkdownHtml =
      String.mk (newlineToBr (escapeHtml content).data) ∧
    parseRenderedText (processMessageContent content true parsedMarkdownHtml) = content := by
  constructor
  · rfl
  · show String.mk (parseRenderedChars (newlineToBr (content.data.flatMap escapeHtmlChar))) = _
    rw [parseRenderedChars_roundtrip]

/-! ### Code-block wrapping: proofs (C5) -/


/-- A literal matches its own concatenation, leaving the remainder. -/

theorem matchLit_append (l r : List Char) : matchLit l (l ++ r) = some r := by
  induction l with
  | nil => rfl
  | cons c cs ih => simp [matchLit, ih]

/-- Lemma: `takeWord` consumes exactly a word-character run that is terminated by a
double quote. -/

theorem takeWord_lang (lang tail : List Char)
    (hw : ∀ c ∈ lang, isWordChar c = true) :
    takeWord (lang ++ '"' :: tail) = (lang, '"' :: tail) := by
  induction lang with
  | nil => simp [takeWord, isWordChar]
  | cons c cs ih =>
    have hc : isWordChar c = true := hw c (List.mem_cons_self c cs)
    have ihh := ih fun d hd => hw d (List.mem_cons_of_mem c hd)
    simp [takeWord, hc, ihh]

/-- The closing literal, decomposed. -/

theorem closeLit_cons : closeLit = '<' :: "/code></pre>".data := by decide

/-- The lazy capture stops at the first occurrence of `</code></pre>` , which,
for a body free of `<`, is the one ending the block. -/

theorem captureUntil_exact (code suffix : List Char)
    (hc : ∀ c ∈ code, c ≠ '<') :
    captureUntil closeLit (code ++ (closeLit ++ suffix)) = some (code, suffix) := by
  induction code with
  | nil =>
    rw [List.nil_append, closeLit_cons, List.cons_append, captureUntil,
      ← List.cons_append, ← closeLit_cons, matchLit_append]
  | cons c cs ih =>
    have hch : c ≠ '<' := hc c (List.mem_cons_self c cs)
    have hne : ¬ ('<' = c) := fun h => hch h.symm
    have hfail : matchLit closeLit (c :: (cs ++ (closeLit ++ suffix))) = none := by
      rw [closeLit_cons]
      show (if '<' = c then _ else none) = none
      rw [if_neg hne]
    rw [List.cons_append, captureUntil, hfail, ih fun d hd => hc d (List.mem_cons_of_mem c hd)]

/-- The regex matches at the head of a full labelled code block, capturing the
language and the body and leaving the suffix. -/

theorem tryCodeBlockAt_full (lang code suffix : List Char)
    (hlang : lang ≠ [])
    (hw : ∀ c ∈ lang, isWordChar c = true)
    (hc : ∀ c ∈ code, c ≠ '<') :
    tryCodeBlockAt (openLit ++ (lang ++ '"' :: '>' :: (code ++ (closeLit ++ suffix)))) =
      some (lang, code, suffix) := by
  have h1 := matchLit_append openLit (lang ++ '"' :: '>' :: (code ++ (closeLit ++ suffix)))
  have h2 : takeWord (lang ++ '"' :: '>' :: (code ++ (closeLit ++ suffix))) =
      (lang, '"' :: '>' :: (code ++ (closeLit ++ suffix))) := takeWord_lang _ _ hw
  have h3 : matchLit ('"' :: '>' :: []) ('"' :: '>' :: (code ++ (closeLit ++ suffix))) =
      some (code ++ (closeLit ++ suffix)) := by simp [matchLit]
  have h4 := captureUntil_exact code suffix hc
  simp only [tryCodeBlockAt, h1, h2, h3, h4, hlang, if_false]

/-- Exhausted input scans to nothing, at any fuel. -/

theorem wrapScan_nil (fuel : Nat) : wrapScan fuel [] = [] := by
  cases fuel <;> rfl

/-- A lone trailing newline is copied unchanged, at any fuel. -/

theorem wrapScan_newline (fuel : Nat) : wrapScan fuel ['\n'] = ['\n'] := by
  cases fuel with
  | zero => rfl
  | succ n =>
    have h : tryCodeBlockAt ['\n'] = none := by decide
    rw [wrapScan, h, wrapScan_nil]

/-- A successful regex match at the current position is replaced by the
template and scanning resumes after it. -/

theorem wrapScan_match (fuel : Nat) (c : Char) (cs lang code rest : List Char)
    (h : tryCodeBlockAt (c :: cs) = some (lang, code, rest)) :
    wrapScan (fuel + 1) (c :: cs) = wrapTpl lang code ++ wrapScan fuel rest := by
  rw [wrapScan, h]

/-- C5 (amended): rendering a non-user-authored markdown document that is one
fenced code block WITH a language tag (word characters, as the regex's `\w+`
demands) produces the block post-processed into the `code-block-wrapper`
element, whose header exposes the captured language in the `code-language`
span next to the `btn-copy-code` copy-to-clipboard button; the captured body
is the escaped code plus the newline `marked` places before `</code>`, and the
trailing newline after the block is preserved.  (Blocks without a language
tag are NOT wrapped — see the counterexample.) -/

theorem labelled_fence_is_wrapped (content lang code : String)
    (hcontent : content ≠ "")
    (hlang : lang.data ≠ [])
    (hw : ∀ c ∈ lang.data, isWordChar c = true)
    (hcode : ∀ c ∈ code.data, c ≠ '<') :
    processMessageContent content false (markedFenceHtml (some lang) code) =
      String.mk (wrapTpl lang.data (code.data ++ ['\n']) ++ ['\n']) := by
  have hpm : processMessageContent content false (markedFenceHtml (some lang) code) =
      wrapCodeBlocks (markedFenceHtml (some lang) code) := by
    simp [processMessageContent, hcontent]
  have hnl : "\n</code></pre>\n".data = '\n' :: (closeLit ++ ['\n']) := by decide
  have hqt : "\">".data = ['"', '>'] := by decide
  have hdata : (markedFenceHtml (some lang) code).data =
      openLit ++ (lang.data ++ '"' :: '>' :: ((code.data ++ ['\n']) ++ (closeLit ++ ['\n']))) := by
    show ("<pre><code class=\"language-" ++ lang ++ "\">" ++ code ++ "\n</code></pre>\n").data = _
    simp only [String.data_append, hnl, hqt, openLit]
    simp [List.append_assoc]
    decide
  have hc' : ∀ c ∈ code.data ++ ['\n'], c ≠ '<' := by
    intro c hcreatedc
    rcases List.mem_append.mp hcreatedc with h | h
    · exact hcode c h
    · simp only [List.mem_singleton] at h
      subst h
      decide
  have htry := tryCodeBlockAt_full lang.data (code.data ++ ['\n']) ['\n'] hlang hw hc'
  have hopen : openLit = '<' :: "pre><code class=\"language-".data := by decide
  rw [hpm, wrapCodeBlocks, hdata, hopen, List.cons_append]
  rw [hopen, List.cons_append] at htry
  rw [List.length_cons, wrapScan_match _ _ _ _ _ _ htry, wrapScan_newline]

/-- Witness for the amended C5 at a concrete fence: language `python`, body
`print(1)`. -/

theorem labelled_fence_is_wrapped_witness :
    processMessageContent "```python\nprint(1)\n```" false
        (markedFenceHtml (some "python") "print(1)") =
      String.mk (wrapTpl "python".data ("print(1)".data ++ ['\n']) ++ ['\n']) := by
  exact labelled_fence_is_wrapped "```python\nprint(1)\n```" "python" "print(1)"
    (by decide) (by decide) (by decide) (by decide)

/-- Counterexample to C5 as stated: a fenced code block WITHOUT a language tag
renders (via the external parser's output `<pre><code>…</code></pre>`, which
the regex `<pre><code class="language-(\w+)">…` cannot match) to HTML that is
left completely unchanged by the post-processing — no `code-block-wrapper`,
no copy button — contradicting "regardless of whether a language tag was
given on the fence". -/

theorem unlabelled_fence_is_not_wrapped :
    processMessageContent "```\nx\n```" false (markedFenceHtml none "x") =
      markedFenceHtml none "x" ∧
    hasSub (processMessageContent "```\nx\n```" false (markedFenceHtml none "x")).data
      "code-block-wrapper".data = false ∧
    hasSub (processMessageContent "```\nx\n```" false (markedFenceHtml none "x")).data
      "btn-copy-code".data = false := by
  refine ⟨?_, ?_, ?_⟩ <;> decide
